import Mathlib

/-!
Shallow embedding of `src/enen_Oxford_longman2.js` (lao-dic).

The script resolves a dictionary lookup: it validates the input word,
issues a GET to the Glosbe JSON API, extracts meaning/example lines from
the JSON, and on any failure (transport error, non-OK status, non-JSON
body, or an empty extraction) falls back to scraping the Glosbe HTML
page; if the scrape chain itself fails it returns a fixed offline line.
A wrapper `getDefinition` joins the resulting lines with blank-line
separators and converts any rejection into a fixed error string.

Modelling conventions:
- JS strings are Lean `String`s; a possibly-absent string field is
  `Option String`, and the JS truthiness test `if (x)` on such a field is
  "present and non-empty".
- The two `fetch` calls are modelled by a `Net` record giving the outcome
  of each request; `findWord` additionally returns the list of requests
  it issued, in order, so that "how many network calls happen" is part of
  the function's observable result.
- The DOM (an external capability in the source) is abstracted as
  `HtmlDoc`: `querySelectorAll` becomes a function from a selector string
  to the list of `textContent`s of the matched nodes, the combined meta
  description query becomes an `Option String`, and `document.body` is the
  optional body `textContent`.
- `String.prototype.trim`, `Array.prototype.join`, `new Set` /
  `Array.from`, `replace(/\s+/g, ' ')` and `substring(0, 800)` are given
  explicit executable models (`jsTrim`, `joinSep`, `dedupFirst`,
  `collapseWS`, `truncate800`); truncation counts characters.
-/

namespace LaoDic

/-- Model of JS `String.prototype.trim`: drop whitespace from both ends. -/
def jsTrim (s : String) : String :=
  ⟨((s.data.dropWhile Char.isWhitespace).reverse.dropWhile Char.isWhitespace).reverse⟩

/-- Model of JS `Array.prototype.join(sep)` for an array of strings. -/
def joinSep (sep : String) : List String → String
  | [] => ""
  | a :: as => as.foldl (fun r x => r ++ sep ++ x) a

/-- One insertion step of JS `Set` construction: append the element unless
it is already present (insertion order is preserved, duplicates skipped). -/
def insertLast (acc : List String) (s : String) : List String :=
  if s ∈ acc then acc else acc ++ [s]

/-- Model of `Array.from(new Set(out))`: keep the first occurrence of each
element, in order. -/
def dedupFirst (l : List String) : List String :=
  l.foldl insertLast []

/-- Model of `Array.from(new Set(out)).filter(Boolean)` (source lines 56
and 135): deduplicate keeping first occurrences, then drop empty strings. -/
def cleanup (l : List String) : List String :=
  (dedupFirst l).filter (fun s => s ≠ "")

/-- Helper for `collapseWS`: the boolean records whether the previous kept
character position ended inside a whitespace run. -/
def collapseWSAux : List Char → Bool → List Char
  | [], _ => []
  | c :: cs, prevWS =>
    if c.isWhitespace then
      if prevWS then collapseWSAux cs true
      else ' ' :: collapseWSAux cs true
    else c :: collapseWSAux cs false

/-- Model of `.replace(/\s+/g, ' ')`: collapse each whitespace run to a
single space. -/
def collapseWS (s : String) : String :=
  ⟨collapseWSAux s.data false⟩

/-- Model of `.substring(0, 800)` (source line 126), counting characters. -/
def truncate800 (s : String) : String :=
  ⟨s.data.take 800⟩

/-- JS truthiness of a possibly-absent string field: present and non-empty. -/
def strTruthy : Option String → Bool
  | none => false
  | some s => s ≠ ""

/-- Characters left unescaped by JS `encodeURIComponent`. -/
def uriUnreserved (c : Char) : Bool :=
  c.isAlphanum || c = '-' || c = '_' || c = '.' || c = '!' || c = '~' ||
    c = '*' || c = Char.ofNat 39 || c = '(' || c = ')'

/-- UTF-8 bytes of a code point, as naturals. -/
def utf8Bytes (n : Nat) : List Nat :=
  if n < 128 then [n]
  else if n < 2048 then [192 + n / 64, 128 + n % 64]
  else if n < 65536 then [224 + n / 4096, 128 + (n / 64) % 64, 128 + n % 64]
  else [240 + n / 262144, 128 + (n / 4096) % 64, 128 + (n / 64) % 64, 128 + n % 64]

/-- Uppercase hexadecimal digit for `n < 16`. -/
def hexDigit (n : Nat) : Char :=
  if n < 10 then Char.ofNat (48 + n) else Char.ofNat (55 + n)

/-- Percent-escape of one byte, e.g. `%20`. -/
def pctByte (b : Nat) : String :=
  ⟨['%', hexDigit (b / 16), hexDigit (b % 16)]⟩

/-- Model of JS `encodeURIComponent`: unreserved characters pass through,
every other character is replaced by the percent-escapes of its UTF-8 bytes. -/
def encodeURIComponent (s : String) : String :=
  String.join (s.data.map fun c =>
    if uriUnreserved c then ⟨[c]⟩
    else String.join ((utf8Bytes c.toNat).map pctByte))

/-! ## Data model of the structured (JSON) API response -/

/-- One element of a translation unit's `meanings` array. -/
structure Meaning where
  text : Option String
deriving Repr, DecidableEq

/-- The `phrase` object of a translation unit. -/
structure PhraseObj where
  text : Option String
deriving Repr, DecidableEq

/-- One translation unit (element of the `tuc` array). -/
structure Tuc where
  meanings : Option (List Meaning)
  phrase : Option PhraseObj
deriving Repr, DecidableEq

/-- One element of the `examples` array: source text and target text. -/
structure ExamplePair where
  first : Option String
  second : Option String
deriving Repr, DecidableEq

/-- The decoded JSON body: optional `tuc` and `examples` arrays. -/
structure ApiJson where
  tuc : Option (List Tuc)
  examples : Option (List ExamplePair)
deriving Repr, DecidableEq

/-- Lines contributed by one meaning (source lines 29-31): `"→ " + m.text`
when `m.text` is truthy, nothing otherwise. -/
def meaningLine (m : Meaning) : List String :=
  match m.text with
  | some t => if t = "" then [] else ["→ " ++ t]
  | none => []

/-- Lines contributed by the `phrase` fallback of a translation unit
(source lines 32-34): `"→ " + item.phrase.text` when present and truthy. -/
def phraseLines (item : Tuc) : List String :=
  match item.phrase with
  | some p =>
    match p.text with
    | some t => if t = "" then [] else ["→ " ++ t]
    | none => []
  | none => []

/-- Lines contributed by one translation unit (source lines 28-34): the
meanings when the `meanings` array is present and non-empty, else the
`phrase` fallback. -/
def tucLines (item : Tuc) : List String :=
  match item.meanings with
  | some ms => if ms.length > 0 then ms.flatMap meaningLine else phraseLines item
  | none => phraseLines item

/-- The meaning lines of the whole response (source lines 26-36): only
produced when `tuc` is present (an array) and non-empty. -/
def tucPart (j : ApiJson) : List String :=
  match j.tuc with
  | some ts => if ts.length > 0 then ts.flatMap tucLines else []
  | none => []

/-- Rendering of one example (source lines 43-46): push `ex.first` if
truthy, push `"— " + ex.second` if truthy, join the pieces with a space. -/
def exampleLine (ex : ExamplePair) : String :=
  joinSep " "
    ((match ex.first with
      | some f => if f = "" then [] else [f]
      | none => []) ++
     (match ex.second with
      | some snd => if snd = "" then [] else ["— " ++ snd]
      | none => []))

/-- The example lines of the response (source lines 39-48): when
`examples` is present and non-empty, the header `"\nExamples:"` followed by
the renderings of the first 6 examples. -/
def examplesPart (j : ApiJson) : List String :=
  match j.examples with
  | some exs =>
    if exs.length > 0 then "\nExamples:" :: (exs.take 6).map exampleLine
    else []
  | none => []

/-- Everything the API handler pushes into `out` before the emptiness
check (source lines 24-48). -/
def extractApi (j : ApiJson) : List String :=
  tucPart j ++ examplesPart j

/-! ## Abstraction of the parsed HTML document

The DOM parser is an external capability; a document is abstracted by what
the scrape handler observes of it. -/

/-- A parsed HTML document, seen through the queries the handler makes:
`query sel` is the list of `textContent`s of the nodes matched by
`querySelectorAll(sel)`, `metaDesc` is the `content` attribute of the first
element matching the combined description/og:description selector (`none`
when no such element exists), and `body` is the body's `textContent`
(`none` when the document has no body). -/
structure HtmlDoc where
  query : String → List String
  metaDesc : Option String
  body : Option String

/-- The ordered meaning selectors (source lines 74-81). -/
def meaningSelectors : List String :=
  [".meaning", ".translation .text", ".translation", ".phrase .translation",
   ".tu-meaning", ".translation-block .translation"]

/-- The ordered example selectors (source lines 94-99). -/
def exampleSelectors : List String :=
  [".example .text", ".examples .example", ".example", ".example-sentence"]

/-- Texts accumulated from one selector's matches (source lines 86-89 and
104-107): each node's `textContent`, trimmed, kept only when non-empty. -/
def nodeTexts (ts : List String) : List String :=
  ts.filterMap (fun t =>
    let txt := jsTrim t
    if txt = "" then none else some txt)

/-- Accumulation over an ordered selector list (source lines 83-91 and
101-109); a selector with zero matches contributes nothing, matches from
several selectors are all appended in order. -/
def collectSel (doc : HtmlDoc) (sels : List String) : List String :=
  sels.flatMap (fun sel => nodeTexts (doc.query sel))

/-- The scrape handler's extraction from a parsed document (source lines
70-136): selector meanings, then the meta-description fallback, then the
whole-page-text fallback, then the example block, then cleanup. -/
def scrapeFromDoc (doc : HtmlDoc) : List String :=
  let results := collectSel doc meaningSelectors
  let examples := collectSel doc exampleSelectors
  let results :=
    if results.length = 0 then
      match doc.metaDesc with
      | some c => if c = "" then [] else [jsTrim c]
      | none => []
    else results
  let out :=
    if results.length > 0 then results.take 12
    else
      let bodyText :=
        match doc.body with
        | some t => if t = "" then "" else collapseWS (jsTrim t)
        | none => ""
      if bodyText = "" then [] else [truncate800 bodyText]
  let out :=
    if examples.length > 0 then out ++ ["\nExamples:"] ++ examples.take 8
    else out
  cleanup out

/-! ## Network model and the pipeline -/

/-- Outcome of the structured API fetch chain (source lines 17-22): the
fetch may reject, the response may be non-OK, the body may fail to decode
as JSON, or a decoded `ApiJson` is obtained. -/
inductive ApiOutcome where
  | netError
  | notOk
  | notJson
  | json (j : ApiJson)

/-- Outcome of the page fetch chain (source lines 62-69): `err` is any
rejection in the scrape chain (network error, body-read failure, or an
exception while handling the document), `notOk` a non-success status, and
`html doc` a fetched and parsed document. -/
inductive PageOutcome where
  | err
  | notOk
  | html (doc : HtmlDoc)

/-- The behaviour of the network for one invocation: what each of the two
possible requests would return. -/
structure Net where
  api : ApiOutcome
  page : PageOutcome

/-- A network request issued by the pipeline, tagged with the trimmed
phrase it carries. -/
inductive Request where
  | apiGet (phrase : String)
  | pageGet (phrase : String)
deriving Repr, DecidableEq

/-- The structured endpoint URL (source line 15). -/
def apiUrl (phrase : String) : String :=
  "https://glosbe.com/gapi/translate?from=lo&dest=vi&format=json&phrase=" ++
    encodeURIComponent phrase ++ "&pretty=true"

/-- The scrape endpoint URL (source line 61). -/
def pageUrl (phrase : String) : String :=
  "https://glosbe.com/lo/vi/" ++ encodeURIComponent phrase

/-- The URL a request resolves to. -/
def Request.url : Request → String
  | .apiGet p => apiUrl p
  | .pageGet p => pageUrl p

/-- The terminal fallback line (source line 140). -/
def offlineLine : String :=
  "No definition found (offline fallback). Try Google Translate or check internet connection."

/-- The scrape fallback (source lines 59-141): issue the page GET; any
failure of the chain yields the terminal fallback line, otherwise the
document is scraped. Returns the produced lines and the issued requests. -/
def scrapeStage (phrase : String) (net : Net) : List String × List Request :=
  match net.page with
  | .err => ([offlineLine], [Request.pageGet phrase])
  | .notOk => ([offlineLine], [Request.pageGet phrase])
  | .html doc => (scrapeFromDoc doc, [Request.pageGet phrase])

/-- The structured lookup stage (source lines 17-58): issue the API GET;
on a decoded JSON body extract lines and, if any, clean and return them;
any failure — rejection, non-OK status, non-JSON body, or an empty
extraction — falls through to the scrape stage. -/
def apiStage (phrase : String) (net : Net) : List String × List Request :=
  match net.api with
  | .json j =>
    let out := extractApi j
    if out.length = 0 then
      let r := scrapeStage phrase net
      (r.1, Request.apiGet phrase :: r.2)
    else
      (cleanup out, [Request.apiGet phrase])
  | .netError =>
    let r := scrapeStage phrase net
    (r.1, Request.apiGet phrase :: r.2)
  | .notOk =>
    let r := scrapeStage phrase net
    (r.1, Request.apiGet phrase :: r.2)
  | .notJson =>
    let r := scrapeStage phrase net
    (r.1, Request.apiGet phrase :: r.2)

/-- The input value handed to `findWord`: a JS string, or any non-string
value. -/
inductive JsInput where
  | str (s : String)
  | other

/-- `findWord` (source lines 6-143). The guard
`!word || typeof word !== 'string'` rejects non-strings and the empty
string (the only falsy string) before any trimming; otherwise the word is
trimmed and the two-stage lookup runs. The second component is the list
of network requests issued, in order. -/
def findWord (word : JsInput) (net : Net) : List String × List Request :=
  match word with
  | .other => (["No word provided"], [])
  | .str s =>
    if s = "" then (["No word provided"], [])
    else apiStage (jsTrim s) net

/-- The body of `getDefinition`'s promise handling (source lines 148-160),
as a function of the outcome of `findWord`'s promise: a rejection becomes
`"Error getting definition"`, an empty line list becomes
`"No result found"`, and otherwise the lines are joined with `"\n\n"`.
Totality of this function is the model of "the wrapper never rejects". -/
def getDefinitionOutcome (o : Except String (List String)) : String :=
  match o with
  | .error _ => "Error getting definition"
  | .ok results =>
    if results.length = 0 then "No result found"
    else joinSep "\n\n" results

/-- `getDefinition` (source lines 146-162) composed with the embedded
`findWord`, which always resolves. -/
def getDefinition (word : JsInput) (net : Net) : String :=
  getDefinitionOutcome (Except.ok (findWord word net).1)

/-- Whether the structured stage fails (and hence falls through to the
scrape stage): any non-JSON outcome, or a decoded body whose extraction is
empty. -/
def apiFailedB (net : Net) : Bool :=
  match net.api with
  | .netError => true
  | .notOk => true
  | .notJson => true
  | .json j => extractApi j = []

/-- Helper for `displayLines`: split a character list at each newline. -/
def splitNLAux : List Char → List Char → List (List Char)
  | [], acc => [acc.reverse]
  | c :: cs, acc =>
    if c = '\n' then acc.reverse :: splitNLAux cs []
    else splitNLAux cs (c :: acc)

/-- The lines of a display string, in the usual sense: the segments
between newline characters. Used to state claims about "header line",
"blank line" and so on over the joined output. -/
def displayLines (s : String) : List String :=
  (splitNLAux s.data []).map (fun l => ⟨l⟩)

/-! ## Concrete fixtures used by witnesses and counterexamples -/

/-- A network on which both requests fail. -/
def netBoth : Net := ⟨ApiOutcome.netError, PageOutcome.err⟩

/-- The spec's example body `tuc: [{meanings: [{text: "A"}]}]`. -/
def jExA : ApiJson := ⟨some [⟨some [⟨some "A"⟩], none⟩], none⟩

/-- A network whose API fetch decodes to `jExA`. -/
def netExA : Net := ⟨ApiOutcome.json jExA, PageOutcome.err⟩

/-- The spec's example body with one example pair:
`tuc: [{meanings: [{text: "A"}]}], examples: [{first: "cat", second: "meo"}]`. -/
def jExCat : ApiJson :=
  ⟨some [⟨some [⟨some "A"⟩], none⟩], some [⟨some "cat", some "meo"⟩]⟩

/-- A network whose API fetch decodes to `jExCat`. -/
def netExCat : Net := ⟨ApiOutcome.json jExCat, PageOutcome.err⟩

/-- The spec's duplicate body
`tuc: [{meanings:[{text:"A"}]}, {meanings:[{text:"A"}]}]`. -/
def jExDup : ApiJson :=
  ⟨some [⟨some [⟨some "A"⟩], none⟩, ⟨some [⟨some "A"⟩], none⟩], none⟩

/-- A network whose API fetch decodes to `jExDup`. -/
def netExDup : Net := ⟨ApiOutcome.json jExDup, PageOutcome.err⟩

/-- A decoded body with absent `tuc` and `examples`. -/
def jExEmpty : ApiJson := ⟨none, none⟩

/-- A network whose API fetch decodes to the empty body `jExEmpty`. -/
def netExEmpty : Net := ⟨ApiOutcome.json jExEmpty, PageOutcome.err⟩

/-- A document on which no selector matches, with no meta description and
a plain body text. -/
def docPlain : HtmlDoc := ⟨fun _ => [], none, some "hello world"⟩

/-! ## Lemmas about the cleanup step (`Array.from(new Set(..))` + filter) -/

lemma insertLast_mem (acc : List String) (b a : String) :
    a ∈ insertLast acc b ↔ a ∈ acc ∨ a = b := by
  unfold insertLast
  by_cases h : b ∈ acc
  · simp only [if_pos h]
    constructor
    · exact Or.inl
    · rintro (ha | rfl)
      · exact ha
      · exact h
  · simp [if_neg h, List.mem_append]

lemma foldl_insertLast_mem (l : List String) :
    ∀ (acc : List String) (a : String),
      a ∈ l.foldl insertLast acc ↔ a ∈ acc ∨ a ∈ l := by
  induction l with
  | nil => intro acc a; simp
  | cons b l ih =>
    intro acc a
    rw [List.foldl_cons, ih, insertLast_mem]
    simp [or_assoc]

lemma insertLast_nodup (acc : List String) (b : String) (h : acc.Nodup) :
    (insertLast acc b).Nodup := by
  unfold insertLast
  by_cases hb : b ∈ acc
  · simpa [if_pos hb]
  · simp [if_neg hb, List.nodup_append, h, hb]

lemma foldl_insertLast_nodup (l : List String) :
    ∀ acc : List String, acc.Nodup → (l.foldl insertLast acc).Nodup := by
  induction l with
  | nil => intro acc h; simpa
  | cons b l ih =>
    intro acc h
    exact ih _ (insertLast_nodup acc b h)

lemma foldl_insertLast_sublist (l : List String) :
    ∀ acc : List String, ∃ l', l'.Sublist l ∧ l.foldl insertLast acc = acc ++ l' := by
  induction l with
  | nil => intro acc; exact ⟨[], List.Sublist.refl _, by simp⟩
  | cons b l ih =>
    intro acc
    rw [List.foldl_cons]
    obtain ⟨l', hl', he⟩ := ih (insertLast acc b)
    by_cases hb : b ∈ acc
    · have hins : insertLast acc b = acc := by simp [insertLast, hb]
      exact ⟨l', hl'.cons b, by rw [he, hins]⟩
    · have hins : insertLast acc b = acc ++ [b] := by simp [insertLast, hb]
      refine ⟨b :: l', hl'.cons₂ b, ?_⟩
      rw [he, hins, List.append_assoc]
      rfl

lemma dedupFirst_mem (l : List String) (a : String) :
    a ∈ dedupFirst l ↔ a ∈ l := by
  unfold dedupFirst
  rw [foldl_insertLast_mem]
  simp

lemma dedupFirst_nodup (l : List String) : (dedupFirst l).Nodup :=
  foldl_insertLast_nodup l [] List.nodup_nil

lemma dedupFirst_sublist (l : List String) : (dedupFirst l).Sublist l := by
  obtain ⟨l', hl', he⟩ := foldl_insertLast_sublist l []
  unfold dedupFirst
  rw [he]
  simpa using hl'

lemma cleanup_mem (l : List String) (a : String) :
    a ∈ cleanup l ↔ a ∈ l ∧ a ≠ "" := by
  unfold cleanup
  rw [List.mem_filter, dedupFirst_mem]
  simp

lemma cleanup_nodup (l : List String) : (cleanup l).Nodup :=
  (dedupFirst_nodup l).filter _

lemma cleanup_count_le_one (l : List String) (a : String) :
    (cleanup l).count a ≤ 1 :=
  List.nodup_iff_count_le_one.mp (cleanup_nodup l) a

lemma cleanup_sublist (l : List String) : (cleanup l).Sublist l :=
  (List.filter_sublist _).trans (dedupFirst_sublist l)

lemma empty_not_mem_cleanup (l : List String) : "" ∉ cleanup l := by
  intro h
  exact ((cleanup_mem l "").mp h).2 rfl

lemma cleanup_singleton (x : String) (h : x ≠ "") : cleanup [x] = [x] := by
  unfold cleanup dedupFirst
  simp [insertLast, List.filter, h]

/-! ## Small string and list facts -/

lemma mk_ne_empty {l : List Char} (h : l ≠ []) : (⟨l⟩ : String) ≠ "" := by
  intro he
  exact h (congrArg String.data he)

lemma append_data (a b : String) : (a ++ b).data = a.data ++ b.data := rfl

lemma arrow_ne_empty (t : String) : ("→ " ++ t) ≠ "" := by
  intro h
  have hd : ("→ " ++ t).data = "".data := congrArg String.data h
  rw [append_data] at hd
  simp at hd

lemma truncate800_ne_empty {s : String} (h : s ≠ "") : truncate800 s ≠ "" := by
  unfold truncate800
  apply mk_ne_empty
  intro ht
  rcases List.take_eq_nil_iff.mp ht with h8 | hnil
  · exact absurd h8 (by decide)
  · exact h (by cases s; simp_all)

lemma flatMap_eq_nil {α β : Type} (f : α → List β) (xs : List α)
    (h : ∀ x ∈ xs, f x = []) : xs.flatMap f = [] := by
  induction xs with
  | nil => rfl
  | cons a l ih =>
    rw [List.flatMap_cons, h a (List.mem_cons_self a l), List.nil_append]
    exact ih (fun x hx => h x (List.mem_cons_of_mem a hx))

lemma scrapeStage_snd (phrase : String) (net : Net) :
    (scrapeStage phrase net).2 = [Request.pageGet phrase] := by
  unfold scrapeStage
  cases net.page <;> rfl

lemma scrapeStage_no_empty (phrase : String) (net : Net) :
    "" ∉ (scrapeStage phrase net).1 := by
  unfold scrapeStage
  cases hp : net.page with
  | err =>
    show "" ∉ [offlineLine]
    decide
  | notOk =>
    show "" ∉ [offlineLine]
    decide
  | html doc => exact empty_not_mem_cleanup _

/-! ## Claims -/

/-- C1, counterexample: a whitespace-only input is a truthy string, so the
guard `!word || typeof word !== 'string'` does not reject it; on `" "` the
pipeline issues the API fetch (and here, both fetches) and does not return
`"No word provided"`. -/
theorem c1_counterexample :
    (findWord (JsInput.str " ") netBoth).2 =
      [Request.apiGet "", Request.pageGet ""] ∧
    (findWord (JsInput.str " ") netBoth).1 ≠ ["No word provided"] := by
  decide

/-- C1, amended: for the empty string or a non-string input, `findWord`
returns the single line `"No word provided"` and issues zero network
requests; any non-empty string — including a whitespace-only one — passes
the guard and the API fetch is issued with the trimmed phrase. -/
theorem c1_guard_no_fetch :
    ∀ net : Net,
      findWord JsInput.other net = (["No word provided"], []) ∧
      findWord (JsInput.str "") net = (["No word provided"], []) ∧
      (∀ s : String, s ≠ "" →
        ((findWord (JsInput.str s) net).2).head? =
          some (Request.apiGet (jsTrim s))) := by
  intro net
  refine ⟨rfl, rfl, fun s hs => ?_⟩
  simp only [findWord]
  rw [if_neg hs]
  cases hn : net.api with
  | json j =>
    by_cases hlen : (extractApi j).length = 0
    · simp [apiStage, hn, hlen, scrapeStage_snd]
    · simp [apiStage, hn, hlen]
  | netError => simp [apiStage, hn, scrapeStage_snd]
  | notOk => simp [apiStage, hn, scrapeStage_snd]
  | notJson => simp [apiStage, hn, scrapeStage_snd]

/-- C1, witness: the amended theorem applied to the whitespace-only input
on the doubly-failing network. -/
theorem c1_guard_no_fetch_witness :
    ((findWord (JsInput.str " ") netBoth).2).head? =
      some (Request.apiGet (jsTrim " ")) :=
  (c1_guard_no_fetch netBoth).2.2 " " (by decide)

/-- C2: the wrapper body is a total function of the promise outcome of
`findWord` — a rejection becomes `"Error getting definition"`, an empty
line sequence becomes `"No result found"`, and a non-empty one is joined
with two consecutive line breaks; `getDefinition` is that function applied
to `findWord`'s (always resolving) outcome, so its promise never rejects. -/
theorem c2_wrapper_never_rejects :
    (∀ e : String,
      getDefinitionOutcome (Except.error e) = "Error getting definition") ∧
    getDefinitionOutcome (Except.ok []) = "No result found" ∧
    (∀ rs : List String, rs ≠ [] →
      getDefinitionOutcome (Except.ok rs) = joinSep "\n\n" rs) ∧
    (∀ (w : JsInput) (net : Net),
      getDefinition w net = getDefinitionOutcome (Except.ok (findWord w net).1)) := by
  refine ⟨fun e => rfl, rfl, fun rs h => ?_, fun w net => rfl⟩
  show (if rs.length = 0 then "No result found" else joinSep "\n\n" rs) =
    joinSep "\n\n" rs
  rw [if_neg (by simpa [List.length_eq_zero] using h)]

/-- C2, witness: the join clause of the wrapper at a concrete two-line
sequence. -/
theorem c2_wrapper_never_rejects_witness :
    getDefinitionOutcome (Except.ok ["a", "b"]) = joinSep "\n\n" ["a", "b"] :=
  c2_wrapper_never_rejects.2.2.1 ["a", "b"] (by decide)

/-- C3: whenever the structured stage fails (any non-JSON outcome or an
empty extraction) and the page fetch chain also fails (rejection or
non-success status), the pipeline returns exactly the single terminal
fallback line. -/
theorem c3_terminal_fallback :
    ∀ (s : String) (net : Net), s ≠ "" → apiFailedB net = true →
      net.page = PageOutcome.err ∨ net.page = PageOutcome.notOk →
      (findWord (JsInput.str s) net).1 = [offlineLine] := by
  intro s net hs hfail hpage
  simp only [findWord]
  rw [if_neg hs]
  have hscrape : (scrapeStage (jsTrim s) net).1 = [offlineLine] := by
    rcases hpage with h | h <;> simp [scrapeStage, h]
  unfold apiFailedB at hfail
  cases hn : net.api with
  | json j =>
    rw [hn] at hfail
    simp only [decide_eq_true_eq] at hfail
    have hlen : (extractApi j).length = 0 := by rw [hfail]; rfl
    simp [apiStage, hn, hlen, hscrape]
  | netError => simp [apiStage, hn, hscrape]
  | notOk => simp [apiStage, hn, hscrape]
  | notJson => simp [apiStage, hn, hscrape]

/-- C3, witness: both endpoints failing on a concrete word. -/
theorem c3_terminal_fallback_witness :
    (findWord (JsInput.str "w") netBoth).1 = [offlineLine] :=
  c3_terminal_fallback "w" netBoth (by decide) (by decide) (Or.inl rfl)

/-- C4: if the decoded body's `tuc` array has an entry whose non-empty
`meanings` list contains a meaning with (truthy) text `txt`, the result
contains the line `"→ " ++ txt` and the only request issued is the API
GET — the scrape fetch is never made on structured success. -/
theorem c4_structured_success_skips_scrape :
    ∀ (s : String) (net : Net) (j : ApiJson) (ts : List Tuc) (tu : Tuc)
      (ms : List Meaning) (m : Meaning) (txt : String),
      s ≠ "" → net.api = ApiOutcome.json j → j.tuc = some ts → tu ∈ ts →
      tu.meanings = some ms → m ∈ ms → m.text = some txt → txt ≠ "" →
      ("→ " ++ txt) ∈ (findWord (JsInput.str s) net).1 ∧
      (findWord (JsInput.str s) net).2 = [Request.apiGet (jsTrim s)] := by
  intro s net j ts tu ms m txt hs hapi htuc htu hms hm htxt hne
  have hmem : ("→ " ++ txt) ∈ extractApi j := by
    apply List.mem_append_left
    unfold tucPart
    rw [htuc]
    show ("→ " ++ txt) ∈ (if ts.length > 0 then ts.flatMap tucLines else [])
    rw [if_pos (List.length_pos.mpr (List.ne_nil_of_mem htu))]
    refine List.mem_flatMap.mpr ⟨tu, htu, ?_⟩
    unfold tucLines
    rw [hms]
    show ("→ " ++ txt) ∈
      (if ms.length > 0 then ms.flatMap meaningLine else phraseLines tu)
    rw [if_pos (List.length_pos.mpr (List.ne_nil_of_mem hm))]
    refine List.mem_flatMap.mpr ⟨m, hm, ?_⟩
    unfold meaningLine
    rw [htxt]
    show ("→ " ++ txt) ∈ (if txt = "" then [] else ["→ " ++ txt])
    rw [if_neg hne]
    exact List.mem_singleton_self _
  have hlen : (extractApi j).length ≠ 0 := by
    intro h0
    rw [List.length_eq_zero] at h0
    rw [h0] at hmem
    exact List.not_mem_nil _ hmem
  constructor
  · simp only [findWord]
    rw [if_neg hs]
    simp only [apiStage, hapi]
    rw [if_neg hlen]
    exact (cleanup_mem _ _).mpr ⟨hmem, arrow_ne_empty txt⟩
  · simp only [findWord]
    rw [if_neg hs]
    simp [apiStage, hapi, hlen]

/-- C4, witness: the spec's example body `tuc: [{meanings: [{text:"A"}]}]`
on a concrete word. -/
theorem c4_structured_success_skips_scrape_witness :
    ("→ " ++ "A") ∈ (findWord (JsInput.str "w") netExA).1 ∧
    (findWord (JsInput.str "w") netExA).2 = [Request.apiGet (jsTrim "w")] :=
  c4_structured_success_skips_scrape "w" netExA jExA
    [⟨some [⟨some "A"⟩], none⟩] ⟨some [⟨some "A"⟩], none⟩
    [⟨some "A"⟩] ⟨some "A"⟩ "A"
    (by decide) rfl rfl (by decide) rfl (by decide) rfl (by decide)

/-- C5: a decoded body with empty or absent `tuc` and `examples` extracts
no lines, so the pipeline falls through to the scrape stage; both issued
requests carry the same trimmed phrase, and their URLs embed the same
percent-encoding of it. -/
theorem c5_empty_json_falls_through :
    ∀ (s : String) (net : Net) (j : ApiJson),
      s ≠ "" → net.api = ApiOutcome.json j →
      j.tuc = none ∨ j.tuc = some [] →
      j.examples = none ∨ j.examples = some [] →
      (findWord (JsInput.str s) net).2 =
        [Request.apiGet (jsTrim s), Request.pageGet (jsTrim s)] ∧
      ((findWord (JsInput.str s) net).2).map Request.url =
        [apiUrl (jsTrim s), pageUrl (jsTrim s)] := by
  intro s net j hs hapi htuc hex
  have hemp : extractApi j = [] := by
    unfold extractApi tucPart examplesPart
    rcases htuc with h | h <;> rcases hex with h2 | h2 <;> rw [h, h2] <;> rfl
  have hlog : (findWord (JsInput.str s) net).2 =
      [Request.apiGet (jsTrim s), Request.pageGet (jsTrim s)] := by
    simp only [findWord]
    rw [if_neg hs]
    simp [apiStage, hapi, hemp, scrapeStage_snd]
  exact ⟨hlog, by rw [hlog]; rfl⟩

/-- C5, witness: the empty decoded body on a concrete word. -/
theorem c5_empty_json_falls_through_witness :
    (findWord (JsInput.str "cat") netExEmpty).2 =
      [Request.apiGet (jsTrim "cat"), Request.pageGet (jsTrim "cat")] ∧
    ((findWord (JsInput.str "cat") netExEmpty).2).map Request.url =
      [apiUrl (jsTrim "cat"), pageUrl (jsTrim "cat")] :=
  c5_empty_json_falls_through "cat" netExEmpty jExEmpty
    (by decide) rfl (Or.inl rfl) (Or.inl rfl)

/-- C6: a body with a non-empty `examples` array makes the extraction end
in the header element `"\nExamples:"` followed by the renderings of at
most the first 6 examples; an example is rendered as its source text
optionally followed by `" — "` and its target text; and on the spec's
concrete body the display string has the line `"Examples:"` preceded by a
blank line and followed (after the join's blank line) by `"cat — meo"`. -/
theorem c6_examples_header_block :
    (∀ (j : ApiJson) (exs : List ExamplePair), j.examples = some exs → exs ≠ [] →
      extractApi j = tucPart j ++ ["\nExamples:"] ++ (exs.take 6).map exampleLine) ∧
    exampleLine ⟨some "cat", some "meo"⟩ = "cat — meo" ∧
    (findWord (JsInput.str "w") netExCat).1 = ["→ A", "\nExamples:", "cat — meo"] ∧
    displayLines (getDefinition (JsInput.str "w") netExCat) =
      ["→ A", "", "", "Examples:", "", "cat — meo"] := by
  refine ⟨fun j exs hj hne => ?_, by decide, by decide, by decide⟩
  unfold extractApi examplesPart
  rw [hj]
  show tucPart j ++
      (if exs.length > 0 then "\nExamples:" :: (exs.take 6).map exampleLine else []) =
    tucPart j ++ ["\nExamples:"] ++ (exs.take 6).map exampleLine
  rw [if_pos (List.length_pos.mpr hne), List.append_assoc]
  rfl

/-- C6, witness: the structural conjunct applied to the spec's concrete
body with one example pair. -/
theorem c6_examples_header_block_witness :
    extractApi jExCat =
      tucPart jExCat ++ ["\nExamples:"] ++
        (([⟨some "cat", some "meo"⟩] : List ExamplePair).take 6).map exampleLine :=
  c6_examples_header_block.1 jExCat [⟨some "cat", some "meo"⟩] rfl (by decide)

/-- C7: on the spec's duplicate body the pipeline returns `"→ A"` exactly
once; in general the cleanup step (`Array.from(new Set(out)).filter(Boolean)`)
leaves every line at most once, preserves first-occurrence order (the
result is a sublist of its input), and keeps exactly the non-empty input
lines. -/
theorem c7_dedup_law :
    (findWord (JsInput.str "w") netExDup).1 = ["→ A"] ∧
    (∀ (l : List String) (a : String), (cleanup l).count a ≤ 1) ∧
    (∀ l : List String, (cleanup l).Sublist l) ∧
    (∀ (l : List String) (a : String), a ∈ cleanup l ↔ a ∈ l ∧ a ≠ "") :=
  ⟨by decide, cleanup_count_le_one, cleanup_sublist, cleanup_mem⟩

/-- C8: on a document where no meaning selector matches, no example
selector matches, and there is no description meta tag, the scrape result
is the single line consisting of the body's visible text, trimmed,
whitespace-collapsed, and truncated to its first 800 characters. -/
theorem c8_body_text_fallback :
    ∀ (doc : HtmlDoc) (t : String),
      (∀ sel ∈ meaningSelectors, doc.query sel = []) →
      (∀ sel ∈ exampleSelectors, doc.query sel = []) →
      doc.metaDesc = none → doc.body = some t →
      collapseWS (jsTrim t) ≠ "" →
      scrapeFromDoc doc = [truncate800 (collapseWS (jsTrim t))] := by
  intro doc t hmean hex hmeta hbody hne
  have hm : collectSel doc meaningSelectors = [] :=
    flatMap_eq_nil _ _ (fun sel hsel => by rw [hmean sel hsel]; rfl)
  have hx : collectSel doc exampleSelectors = [] :=
    flatMap_eq_nil _ _ (fun sel hsel => by rw [hex sel hsel]; rfl)
  have ht : t ≠ "" := by
    intro h0
    apply hne
    rw [h0]
    rfl
  have hcl := cleanup_singleton _ (truncate800_ne_empty hne)
  unfold scrapeFromDoc
  rw [hm, hx, hmeta, hbody]
  simp [ht, hne, hcl]

/-- C8, witness: a document with no matching selectors, no meta
description, and body text `"hello world"`. -/
theorem c8_body_text_fallback_witness :
    scrapeFromDoc docPlain = [truncate800 (collapseWS (jsTrim "hello world"))] :=
  c8_body_text_fallback docPlain "hello world"
    (fun _ _ => rfl) (fun _ _ => rfl) rfl rfl (by decide)

/-- C9: on every input and every network behaviour, one invocation issues
at most two requests, never issues the same request twice, and only issues
a page-scrape request when the structured stage failed or extracted
nothing. -/
theorem c9_at_most_two_requests :
    ∀ (w : JsInput) (net : Net),
      (findWord w net).2.length ≤ 2 ∧
      (findWord w net).2.Nodup ∧
      (∀ p : String, Request.pageGet p ∈ (findWord w net).2 →
        apiFailedB net = true) := by
  intro w net
  cases w with
  | other =>
    exact ⟨by simp [findWord], by simp [findWord],
      fun p hp => absurd hp (by simp [findWord])⟩
  | str s =>
    by_cases hs : s = ""
    · subst hs
      exact ⟨by simp [findWord], by simp [findWord],
        fun p hp => absurd hp (by simp [findWord])⟩
    · have hfw : findWord (JsInput.str s) net = apiStage (jsTrim s) net := by
        simp [findWord, hs]
      rw [hfw]
      cases hn : net.api with
      | json j =>
        by_cases hlen : (extractApi j).length = 0
        · have h2 : (apiStage (jsTrim s) net).2 =
              [Request.apiGet (jsTrim s), Request.pageGet (jsTrim s)] := by
            simp [apiStage, hn, hlen, scrapeStage_snd]
          rw [h2]
          exact ⟨by simp, by simp, fun p _ => by
            simp [apiFailedB, hn, List.length_eq_zero.mp hlen]⟩
        · have h1 : (apiStage (jsTrim s) net).2 = [Request.apiGet (jsTrim s)] := by
            simp [apiStage, hn, hlen]
          rw [h1]
          exact ⟨by simp, by simp, fun p hp => absurd hp (by simp)⟩
      | netError =>
        have h2 : (apiStage (jsTrim s) net).2 =
            [Request.apiGet (jsTrim s), Request.pageGet (jsTrim s)] := by
          simp [apiStage, hn, scrapeStage_snd]
        rw [h2]
        exact ⟨by simp, by simp, fun p _ => by simp [apiFailedB, hn]⟩
      | notOk =>
        have h2 : (apiStage (jsTrim s) net).2 =
            [Request.apiGet (jsTrim s), Request.pageGet (jsTrim s)] := by
          simp [apiStage, hn, scrapeStage_snd]
        rw [h2]
        exact ⟨by simp, by simp, fun p _ => by simp [apiFailedB, hn]⟩
      | notJson =>
        have h2 : (apiStage (jsTrim s) net).2 =
            [Request.apiGet (jsTrim s), Request.pageGet (jsTrim s)] := by
          simp [apiStage, hn, scrapeStage_snd]
        rw [h2]
        exact ⟨by simp, by simp, fun p _ => by simp [apiFailedB, hn]⟩

/-- C9, witness: the scrape-only-after-failure clause at a concrete word
on the doubly-failing network. -/
theorem c9_at_most_two_requests_witness : apiFailedB netBoth = true :=
  (c9_at_most_two_requests (JsInput.str "w") netBoth).2.2 "w" (by decide)

/-- C10: an example pair with both fields absent renders to the empty
string, one with only a target renders to `"— " ++ target`, one with only
a source renders to the bare source text; and on every input and network
behaviour the final line sequence of `findWord` contains no empty line. -/
theorem c10_malformed_examples :
    exampleLine ⟨none, none⟩ = "" ∧
    (∀ snd : String, snd ≠ "" → exampleLine ⟨none, some snd⟩ = "— " ++ snd) ∧
    (∀ f : String, f ≠ "" → exampleLine ⟨some f, none⟩ = f) ∧
    (∀ (w : JsInput) (net : Net), "" ∉ (findWord w net).1) := by
  refine ⟨rfl, fun snd h => ?_, fun f h => ?_, fun w net => ?_⟩
  · show joinSep " " ([] ++ (if snd = "" then [] else ["— " ++ snd])) = "— " ++ snd
    rw [if_neg h]
    rfl
  · show joinSep " " ((if f = "" then [] else [f]) ++ []) = f
    rw [if_neg h]
    rfl
  · cases w with
    | other =>
      show "" ∉ ["No word provided"]
      decide
    | str s =>
      by_cases hs : s = ""
      · subst hs
        show "" ∉ ["No word provided"]
        decide
      · have hfw : (findWord (JsInput.str s) net).1 = (apiStage (jsTrim s) net).1 := by
          simp [findWord, hs]
        rw [hfw]
        cases hn : net.api with
        | json j =>
          by_cases hlen : (extractApi j).length = 0
          · have h1 : (apiStage (jsTrim s) net).1 = (scrapeStage (jsTrim s) net).1 := by
              simp [apiStage, hn, hlen]
            rw [h1]
            exact scrapeStage_no_empty _ _
          · have h1 : (apiStage (jsTrim s) net).1 = cleanup (extractApi j) := by
              simp [apiStage, hn, hlen]
            rw [h1]
            exact empty_not_mem_cleanup _
        | netError =>
          have h1 : (apiStage (jsTrim s) net).1 = (scrapeStage (jsTrim s) net).1 := by
            simp [apiStage, hn]
          rw [h1]
          exact scrapeStage_no_empty _ _
        | notOk =>
          have h1 : (apiStage (jsTrim s) net).1 = (scrapeStage (jsTrim s) net).1 := by
            simp [apiStage, hn]
          rw [h1]
          exact scrapeStage_no_empty _ _
        | notJson =>
          have h1 : (apiStage (jsTrim s) net).1 = (scrapeStage (jsTrim s) net).1 := by
            simp [apiStage, hn]
          rw [h1]
          exact scrapeStage_no_empty _ _

/-- C10, witness: the target-only and source-only clauses at concrete
example pairs. -/
theorem c10_malformed_examples_witness :
    exampleLine ⟨none, some "meo"⟩ = "— " ++ "meo" ∧
    exampleLine ⟨some "cat", none⟩ = "cat" :=
  ⟨c10_malformed_examples.2.1 "meo" (by decide),
   c10_malformed_examples.2.2.1 "cat" (by decide)⟩

end LaoDic
